import Mathlib

/-!
Verification of the DZT file decoder `readdzt` from
`src/gprpy/toolbox/gprIO_DZT.py`.

The decoder is embedded shallowly:

* a file is a `ByteStream`: a length together with a byte-valued function
  (random access models the seekable file handle; `np.fromfile` re-opens the
  same file, so one stream serves both the header read and the sample read);
* the header is decoded into an ordered association list (modelling the
  Python insertion-ordered `dict`), reading little-endian signed 16-bit
  integers (`struct.unpack('h', ...)`) and 32-bit IEEE-754 floats
  (`struct.unpack('f', ...)`) at the cursor positions of the source;
* float words are decoded exactly into `Option ℚ` (`none` for NaN/Inf);
* `np.fromfile(filename, dtype, offset, count)` is modelled by
  `fromfileCount`: a negative seek offset raises (`OSError`), otherwise it
  reads `count` items (all remaining items when `count < 0`), silently
  clamped to the number of complete items available after the offset;
* `datvec.reshape(-1, k).T` is modelled by `reshapeT`, which fails
  (`ValueError`) unless `0 < k` and `k` divides the flat length, and
  otherwise builds the transposed matrix by explicit index mapping
  (entry `(r, c)` is flat element `c * k + r`);
* the missing `else` in the dtype selection (a `bits_per_sample` outside
  {8, 16, 32} leaves `datatype` unbound, so `np.fromfile` raises
  `UnboundLocalError`) is modelled by the `unsupportedSampleWidth` error.

Machine integers are `Nat`/`Int` with explicit `% 2^w`; Python's
`int(x / 8)` (truncation toward zero) is `Int.tdiv`.
-/

/-- Decode errors of the embedded decoder. `streamError` models
`struct.error` on a short header read and `OSError` on a negative seek;
`unsupportedSampleWidth` models the `UnboundLocalError` from the missing
dtype branch; `incompleteTrace` models the `ValueError` from `reshape`. -/
inductive DecodeError where
  | streamError
  | unsupportedSampleWidth
  | incompleteTrace
deriving DecidableEq

/-- A header value: a decoded signed 16-bit integer, or a decoded 32-bit
IEEE-754 float represented exactly as a rational (`none` for NaN/Inf). -/
inductive HVal where
  | intv (z : Int)
  | floatv (q : Option ℚ)
deriving DecidableEq

/-- A byte-addressable input: length plus byte function, modelling the
opened file. -/
structure ByteStream where
  len : Nat
  byte : Nat → Nat

/-- Byte `i` of the stream, reduced to an actual byte value. -/
def bAt (s : ByteStream) (i : Nat) : Nat := s.byte i % 256

/-- Little-endian word of `width` bytes starting at position `p`. -/
def wordAt (s : ByteStream) (p width : Nat) : Nat :=
  ((List.range width).map fun j => bAt s (p + j) * 256 ^ j).sum

/-- Decode two bytes as a little-endian signed 16-bit integer, as
`struct.unpack('h', ...)` does. -/
def i16val (b0 b1 : Nat) : Int :=
  let w := b0 % 256 + 256 * (b1 % 256)
  if w < 32768 then (w : Int) else (w : Int) - 65536

/-- Exact value of a 32-bit IEEE-754 float bit pattern, as a rational;
`none` for the non-finite encodings (exponent field 255). -/
def float32ToQ (w : Nat) : Option ℚ :=
  let sign : ℚ := if w / 2 ^ 31 % 2 = 1 then -1 else 1
  let e : Nat := w / 2 ^ 23 % 2 ^ 8
  let frac : Nat := w % 2 ^ 23
  if e = 255 then none
  else if e = 0 then some (sign * ((frac : ℚ) / 2 ^ 23) * (1 / 2 ^ 126))
  else if 127 <= e then some (sign * (1 + (frac : ℚ) / 2 ^ 23) * 2 ^ (e - 127))
  else some (sign * (1 + (frac : ℚ) / 2 ^ 23) * (1 / 2 ^ (127 - e)))

/-- `fid.read(2)` + `struct.unpack('h', ...)` at cursor position `p`:
fails (`struct.error`) when fewer than 2 bytes remain. -/
def rdI16 (s : ByteStream) (p : Nat) : Except DecodeError Int :=
  if p + 2 ≤ s.len then .ok (i16val (bAt s p) (bAt s (p + 1))) else .error .streamError

/-- `fid.read(4)` + `struct.unpack('f', ...)` at cursor position `p`:
fails (`struct.error`) when fewer than 4 bytes remain. -/
def rdF32 (s : ByteStream) (p : Nat) : Except DecodeError (Option ℚ) :=
  if p + 4 ≤ s.len then .ok (float32ToQ (wordAt s p 4)) else .error .streamError

/-- The header block of `readdzt`: twenty sequential reads from position 0,
each at the cursor position noted by the `# Pos XX` comments of the source,
inserted into the `info` mapping in source order. -/
def decodeHeader (s : ByteStream) : Except DecodeError (List (String × HVal)) := do
  let tag ← rdI16 s 0
  let dta ← rdI16 s 2
  let nsamp ← rdI16 s 4
  let bits ← rdI16 s 6
  let zero ← rdI16 s 8
  let sps ← rdF32 s 10
  let spm ← rdF32 s 14
  let mpm ← rdF32 s 18
  let pos ← rdF32 s 22
  let rng ← rdF32 s 26
  let npass ← rdI16 s 30
  let cdt ← rdF32 s 32
  let mdt ← rdF32 s 36
  let mapOff ← rdI16 s 40
  let mapSize ← rdI16 s 42
  let txt ← rdI16 s 44
  let ntxt ← rdI16 s 46
  let prc ← rdI16 s 48
  let nprc ← rdI16 s 50
  let nchan ← rdI16 s 52
  return [("rh_tag", .intv tag), ("rh_data", .intv dta), ("rh_nsamp", .intv nsamp),
    ("rh_bits", .intv bits), ("rh_zero", .intv zero), ("rhf_sps", .floatv sps),
    ("rhf_spm", .floatv spm), ("rhf_mpm", .floatv mpm), ("rhf_position", .floatv pos),
    ("rhf_range", .floatv rng), ("rh_npass", .intv npass), ("rhb_cdt", .floatv cdt),
    ("rhb_mdt", .floatv mdt), ("rh_mapOffset", .intv mapOff), ("rh_mapSize", .intv mapSize),
    ("rh_text", .intv txt), ("rh_ntext", .intv ntxt), ("rh_proc", .intv prc),
    ("rh_nproc", .intv nprc), ("rh_nchan", .intv nchan)]

/-- `info[key]` for an integer-valued header field.  After a successful
header decode every key used by the decoder is present with an integer
value, so the fallback 0 is never reached on the decode path. -/
def geti (info : List (String × HVal)) (k : String) : Int :=
  match info.lookup k with
  | some (HVal.intv z) => z
  | _ => 0

/-- Offset resolution of `readdzt` (lines 109-112): `minheadsize = 1024`;
`head_offset = 1024 * rh_data` when `rh_data < 1024`, else
`1024 * rh_nchan`. -/
def headOffsetOf (info : List (String × HVal)) : Int :=
  if geti info "rh_data" < 1024 then 1024 * geti info "rh_data"
  else 1024 * geti info "rh_nchan"

/-- Sample width in bytes from the dtype selection (lines 99-104):
`uint8` for 8, `uint16` for 16, `int32` for 32; `none` records the missing
`else` branch (the later `UnboundLocalError`). -/
def sampleWidth (bits : Int) : Option Nat :=
  if bits = 8 then some 1 else if bits = 16 then some 2
  else if bits = 32 then some 4 else none

/-- Value of a raw little-endian word under the selected dtype: `uint8`
and `uint16` read the word unchanged, `int32` reinterprets it as a signed
32-bit two's-complement integer. -/
def decodeWord (bits : Int) (w : Nat) : Int :=
  if bits = 32 then (if w < 2 ^ 31 then (w : Int) else (w : Int) - 2 ^ 32)
  else (w : Int)

/-- Sign recentring (lines 136-139): for 8- and 16-bit (unsigned) samples,
widen and subtract `2 ** rh_bits // 2`; 32-bit samples pass unchanged. -/
def recentre (bits : Int) (v : Int) : Int :=
  if bits = 8 ∨ bits = 16 then v - 2 ^ bits.toNat / 2 else v

/-- `np.fromfile(filename, dtype, offset, count)`: a negative seek offset
raises; otherwise the number of complete items available after the offset
is computed from the file size, and `count < 0` means read all of them
while `count ≥ 0` reads `min count avail` items (numpy silently returns
fewer items than requested when the file is short). -/
def fromfileCount (s : ByteStream) (width : Nat) (offset cnt : Int)
    (dec : Nat → Int) : Except DecodeError (List Int) :=
  if offset < 0 then .error .streamError
  else
    let off := offset.toNat
    let avail := (s.len - off) / width
    let n := if cnt < 0 then avail else min cnt.toNat avail
    .ok ((List.range n).map fun i => dec (wordAt s (off + i * width) width))

/-- `datvec.reshape(-1, k).T` (line 142): fails unless `0 < k` and `k`
divides the flat length; otherwise the result is the list of the `k` rows
of the transposed matrix, built by explicit index mapping — entry `(r, c)`
of the result is flat element `c * k + r`, so column `c` is the `c`-th
consecutive chunk of `k` flat elements. -/
def reshapeT (k : Int) (v : List Int) : Except DecodeError (List (List Int)) :=
  if 0 < k ∧ (v.length : Int) % k = 0 then
    let kn := k.toNat
    let ncols := v.length / kn
    .ok ((List.range kn).map fun r => (List.range ncols).map fun c => v.getD (c * kn + r) 0)
  else .error .incompleteTrace

/-- The decoder `readdzt(filename, start_scan=0, n_scans=-1)`: decode the
header, select the dtype, resolve `head_offset`, compute
`start_offset = int(start_scan * rh_nchan * rh_nsamp * rh_bits / 8)` and
`count = int(n_scans * rh_nsamp * rh_nchan)` when `n_scans > 0` (else -1),
read the samples, recentre unsigned widths, reshape, and return the data
matrix together with the header mapping. -/
def readdzt (s : ByteStream) (start_scan : Int := 0) (n_scans : Int := -1) :
    Except DecodeError (List (List Int) × List (String × HVal)) := do
  let info ← decodeHeader s
  let bits := geti info "rh_bits"
  let width ← match sampleWidth bits with
    | some w => Except.ok w
    | none => Except.error DecodeError.unsupportedSampleWidth
  let head_offset := headOffsetOf info
  let start_offset := Int.tdiv (start_scan * geti info "rh_nchan" * geti info "rh_nsamp" * bits) 8
  let cnt : Int := if 0 < n_scans then n_scans * geti info "rh_nsamp" * geti info "rh_nchan" else -1
  let datvec ← fromfileCount s width (head_offset + start_offset) cnt (decodeWord bits)
  let datvec2 := datvec.map (recentre bits)
  let data ← reshapeT (geti info "rh_nsamp" * geti info "rh_nchan") datvec2
  return (data, info)

/-- Column `j` of a matrix given as its list of rows. -/
def colOf (m : List (List Int)) (j : Nat) : List Int :=
  m.map fun row => row.getD j 0

/-- Little-endian byte `j` of the 16-bit two's-complement encoding of `z`. -/
def i16bytes (z : Int) (j : Nat) : Nat := ((z % 65536).toNat / 256 ^ j) % 256

/-- Little-endian byte `j` of the 32-bit word `w`. -/
def u32bytes (w : Nat) (j : Nat) : Nat := w / 256 ^ j % 256

/-- A synthetic 54-byte header buffer holding the given thirteen signed
16-bit field values and seven 32-bit float words at the documented
offsets. -/
def mkBuf (tag dta nsamp bits zero npass mapOff mapSize txt ntxt prc nprc nchan : Int) (sps spm mpm pos rng cdt mdt : Nat) : ByteStream :=
  ⟨54, fun i =>
    if i < 2 then i16bytes tag (i - 0)
    else if i < 4 then i16bytes dta (i - 2)
    else if i < 6 then i16bytes nsamp (i - 4)
    else if i < 8 then i16bytes bits (i - 6)
    else if i < 10 then i16bytes zero (i - 8)
    else if i < 14 then u32bytes sps (i - 10)
    else if i < 18 then u32bytes spm (i - 14)
    else if i < 22 then u32bytes mpm (i - 18)
    else if i < 26 then u32bytes pos (i - 22)
    else if i < 30 then u32bytes rng (i - 26)
    else if i < 32 then i16bytes npass (i - 30)
    else if i < 36 then u32bytes cdt (i - 32)
    else if i < 40 then u32bytes mdt (i - 36)
    else if i < 42 then i16bytes mapOff (i - 40)
    else if i < 44 then i16bytes mapSize (i - 42)
    else if i < 46 then i16bytes txt (i - 44)
    else if i < 48 then i16bytes ntxt (i - 46)
    else if i < 50 then i16bytes prc (i - 48)
    else if i < 52 then i16bytes nprc (i - 50)
    else i16bytes nchan (i - 52)⟩

def c6stream : ByteStream :=
  ⟨3584, fun i =>
    if i = 3 then 4 else if i = 5 then 1 else if i = 6 then 16
    else if i = 52 then 1
    else if 1024 ≤ i ∧ (i - 1024) % 2 = 1 then 128 else 0⟩

def c6info : List (String × HVal) :=
  [("rh_tag", .intv 0), ("rh_data", .intv 1024), ("rh_nsamp", .intv 256),
   ("rh_bits", .intv 16), ("rh_zero", .intv 0), ("rhf_sps", .floatv (float32ToQ 0)),
   ("rhf_spm", .floatv (float32ToQ 0)), ("rhf_mpm", .floatv (float32ToQ 0)),
   ("rhf_position", .floatv (float32ToQ 0)), ("rhf_range", .floatv (float32ToQ 0)),
   ("rh_npass", .intv 0), ("rhb_cdt", .floatv (float32ToQ 0)),
   ("rhb_mdt", .floatv (float32ToQ 0)), ("rh_mapOffset", .intv 0), ("rh_mapSize", .intv 0),
   ("rh_text", .intv 0), ("rh_ntext", .intv 0), ("rh_proc", .intv 0),
   ("rh_nproc", .intv 0), ("rh_nchan", .intv 1)]

def smallStream : ByteStream :=
  ⟨54, fun i => if i = 4 then 2 else if i = 6 then 8 else if i = 52 then 1 else 0⟩

def smallInfo : List (String × HVal) :=
  [("rh_tag", .intv 0), ("rh_data", .intv 0), ("rh_nsamp", .intv 2),
   ("rh_bits", .intv 8), ("rh_zero", .intv 0), ("rhf_sps", .floatv (float32ToQ 0)),
   ("rhf_spm", .floatv (float32ToQ 0)), ("rhf_mpm", .floatv (float32ToQ 0)),
   ("rhf_position", .floatv (float32ToQ 0)), ("rhf_range", .floatv (float32ToQ 0)),
   ("rh_npass", .intv 0), ("rhb_cdt", .floatv (float32ToQ 0)),
   ("rhb_mdt", .floatv (float32ToQ 0)), ("rh_mapOffset", .intv 0), ("rh_mapSize", .intv 0),
   ("rh_text", .intv 0), ("rh_ntext", .intv 0), ("rh_proc", .intv 0),
   ("rh_nproc", .intv 0), ("rh_nchan", .intv 1)]

def c7stream : ByteStream :=
  ⟨12289, fun i =>
    if i = 3 then 4 else if i = 5 then 2 else if i = 6 then 8
    else if i = 52 then 2 else 0⟩

def c7info : List (String × HVal) :=
  [("rh_tag", .intv 0), ("rh_data", .intv 1024), ("rh_nsamp", .intv 512),
   ("rh_bits", .intv 8), ("rh_zero", .intv 0), ("rhf_sps", .floatv (float32ToQ 0)),
   ("rhf_spm", .floatv (float32ToQ 0)), ("rhf_mpm", .floatv (float32ToQ 0)),
   ("rhf_position", .floatv (float32ToQ 0)), ("rhf_range", .floatv (float32ToQ 0)),
   ("rh_npass", .intv 0), ("rhb_cdt", .floatv (float32ToQ 0)),
   ("rhb_mdt", .floatv (float32ToQ 0)), ("rh_mapOffset", .intv 0), ("rh_mapSize", .intv 0),
   ("rh_text", .intv 0), ("rh_ntext", .intv 0), ("rh_proc", .intv 0),
   ("rh_nproc", .intv 0), ("rh_nchan", .intv 2)]

def w2a : List (String × HVal) :=
  [("rh_data", .intv 5), ("rh_nchan", .intv 2), ("rh_tag", .intv 1)]

def w2b : List (String × HVal) :=
  [("rh_data", .intv 5), ("rh_nchan", .intv 2), ("rh_tag", .intv 99), ("rh_nsamp", .intv 7)]

def c9stream : ByteStream :=
  ⟨54, fun i => if i = 6 then 7 else 0⟩

def c9info : List (String × HVal) :=
  [("rh_tag", .intv 0), ("rh_data", .intv 0), ("rh_nsamp", .intv 0),
   ("rh_bits", .intv 7), ("rh_zero", .intv 0), ("rhf_sps", .floatv (float32ToQ 0)),
   ("rhf_spm", .floatv (float32ToQ 0)), ("rhf_mpm", .floatv (float32ToQ 0)),
   ("rhf_position", .floatv (float32ToQ 0)), ("rhf_range", .floatv (float32ToQ 0)),
   ("rh_npass", .intv 0), ("rhb_cdt", .floatv (float32ToQ 0)),
   ("rhb_mdt", .floatv (float32ToQ 0)), ("rh_mapOffset", .intv 0), ("rh_mapSize", .intv 0),
   ("rh_text", .intv 0), ("rh_ntext", .intv 0), ("rh_proc", .intv 0),
   ("rh_nproc", .intv 0), ("rh_nchan", .intv 0)]

/-- Read lemma: an in-range 16-bit read succeeds with the little-endian
signed value of the two bytes at the cursor. -/
theorem rdI16_eq (s : ByteStream) (p : Nat) (h : p + 2 <= s.len) :
    rdI16 s p = .ok (i16val (bAt s p) (bAt s (p + 1))) := by
  simp [rdI16, h]

/-- Read lemma: an in-range 32-bit float read succeeds with the decoded
value of the little-endian word at the cursor. -/
theorem rdF32_eq (s : ByteStream) (p : Nat) (h : p + 4 <= s.len) :
    rdF32 s p = .ok (float32ToQ (wordAt s p 4)) := by
  simp [rdF32, h]

/-- Any stream of at least 54 bytes decodes to exactly the twenty header
fields, each read at its fixed byte offset with its fixed width and
encoding. -/
theorem decodeHeader_eq (s : ByteStream) (h : 54 <= s.len) :
    decodeHeader s = .ok
      [("rh_tag", .intv (i16val (bAt s 0) (bAt s 1))),
       ("rh_data", .intv (i16val (bAt s 2) (bAt s 3))),
       ("rh_nsamp", .intv (i16val (bAt s 4) (bAt s 5))),
       ("rh_bits", .intv (i16val (bAt s 6) (bAt s 7))),
       ("rh_zero", .intv (i16val (bAt s 8) (bAt s 9))),
       ("rhf_sps", .floatv (float32ToQ (wordAt s 10 4))),
       ("rhf_spm", .floatv (float32ToQ (wordAt s 14 4))),
       ("rhf_mpm", .floatv (float32ToQ (wordAt s 18 4))),
       ("rhf_position", .floatv (float32ToQ (wordAt s 22 4))),
       ("rhf_range", .floatv (float32ToQ (wordAt s 26 4))),
       ("rh_npass", .intv (i16val (bAt s 30) (bAt s 31))),
       ("rhb_cdt", .floatv (float32ToQ (wordAt s 32 4))),
       ("rhb_mdt", .floatv (float32ToQ (wordAt s 36 4))),
       ("rh_mapOffset", .intv (i16val (bAt s 40) (bAt s 41))),
       ("rh_mapSize", .intv (i16val (bAt s 42) (bAt s 43))),
       ("rh_text", .intv (i16val (bAt s 44) (bAt s 45))),
       ("rh_ntext", .intv (i16val (bAt s 46) (bAt s 47))),
       ("rh_proc", .intv (i16val (bAt s 48) (bAt s 49))),
       ("rh_nproc", .intv (i16val (bAt s 50) (bAt s 51))),
       ("rh_nchan", .intv (i16val (bAt s 52) (bAt s 53)))] := by
  simp only [decodeHeader,
    rdI16_eq s 0 (by omega), rdI16_eq s 2 (by omega), rdI16_eq s 4 (by omega),
    rdI16_eq s 6 (by omega), rdI16_eq s 8 (by omega), rdF32_eq s 10 (by omega),
    rdF32_eq s 14 (by omega), rdF32_eq s 18 (by omega), rdF32_eq s 22 (by omega),
    rdF32_eq s 26 (by omega), rdI16_eq s 30 (by omega), rdF32_eq s 32 (by omega),
    rdF32_eq s 36 (by omega), rdI16_eq s 40 (by omega), rdI16_eq s 42 (by omega),
    rdI16_eq s 44 (by omega), rdI16_eq s 46 (by omega), rdI16_eq s 48 (by omega),
    rdI16_eq s 50 (by omega), rdI16_eq s 52 (by omega)]
  rfl

/-- Field recovery at offset 0 of the synthetic buffer. -/
theorem mk_tag {tag dta nsamp bits zero npass mapOff mapSize txt ntxt prc nprc nchan : Int} {sps spm mpm pos rng cdt mdt : Nat} (ha : -32768 <= tag) (hb : tag < 32768) :
    i16val (bAt (mkBuf tag dta nsamp bits zero npass mapOff mapSize txt ntxt prc nprc nchan sps spm mpm pos rng cdt mdt) 0) (bAt (mkBuf tag dta nsamp bits zero npass mapOff mapSize txt ntxt prc nprc nchan sps spm mpm pos rng cdt mdt) 1) = tag := by
  simp only [bAt, mkBuf, i16val, i16bytes, pow_zero, pow_one, Nat.div_one]
  norm_num
  split_ifs <;> omega

/-- Field recovery at offset 2 of the synthetic buffer. -/
theorem mk_dta {tag dta nsamp bits zero npass mapOff mapSize txt ntxt prc nprc nchan : Int} {sps spm mpm pos rng cdt mdt : Nat} (ha : -32768 <= dta) (hb : dta < 32768) :
    i16val (bAt (mkBuf tag dta nsamp bits zero npass mapOff mapSize txt ntxt prc nprc nchan sps spm mpm pos rng cdt mdt) 2) (bAt (mkBuf tag dta nsamp bits zero npass mapOff mapSize txt ntxt prc nprc nchan sps spm mpm pos rng cdt mdt) 3) = dta := by
  simp only [bAt, mkBuf, i16val, i16bytes, pow_zero, pow_one, Nat.div_one]
  norm_num
  split_ifs <;> omega

/-- Field recovery at offset 4 of the synthetic buffer. -/
theorem mk_nsamp {tag dta nsamp bits zero npass mapOff mapSize txt ntxt prc nprc nchan : Int} {sps spm mpm pos rng cdt mdt : Nat} (ha : -32768 <= nsamp) (hb : nsamp < 32768) :
    i16val (bAt (mkBuf tag dta nsamp bits zero npass mapOff mapSize txt ntxt prc nprc nchan sps spm mpm pos rng cdt mdt) 4) (bAt (mkBuf tag dta nsamp bits zero npass mapOff mapSize txt ntxt prc nprc nchan sps spm mpm pos rng cdt mdt) 5) = nsamp := by
  simp only [bAt, mkBuf, i16val, i16bytes, pow_zero, pow_one, Nat.div_one]
  norm_num
  split_ifs <;> omega

/-- Field recovery at offset 6 of the synthetic buffer. -/
theorem mk_bits {tag dta nsamp bits zero npass mapOff mapSize txt ntxt prc nprc nchan : Int} {sps spm mpm pos rng cdt mdt : Nat} (ha : -32768 <= bits) (hb : bits < 32768) :
    i16val (bAt (mkBuf tag dta nsamp bits zero npass mapOff mapSize txt ntxt prc nprc nchan sps spm mpm pos rng cdt mdt) 6) (bAt (mkBuf tag dta nsamp bits zero npass mapOff mapSize txt ntxt prc nprc nchan sps spm mpm pos rng cdt mdt) 7) = bits := by
  simp only [bAt, mkBuf, i16val, i16bytes, pow_zero, pow_one, Nat.div_one]
  norm_num
  split_ifs <;> omega

/-- Field recovery at offset 8 of the synthetic buffer. -/
theorem mk_zero {tag dta nsamp bits zero npass mapOff mapSize txt ntxt prc nprc nchan : Int} {sps spm mpm pos rng cdt mdt : Nat} (ha : -32768 <= zero) (hb : zero < 32768) :
    i16val (bAt (mkBuf tag dta nsamp bits zero npass mapOff mapSize txt ntxt prc nprc nchan sps spm mpm pos rng cdt mdt) 8) (bAt (mkBuf tag dta nsamp bits zero npass mapOff mapSize txt ntxt prc nprc nchan sps spm mpm pos rng cdt mdt) 9) = zero := by
  simp only [bAt, mkBuf, i16val, i16bytes, pow_zero, pow_one, Nat.div_one]
  norm_num
  split_ifs <;> omega

/-- Field recovery at offset 10 of the synthetic buffer. -/
theorem mk_sps {tag dta nsamp bits zero npass mapOff mapSize txt ntxt prc nprc nchan : Int} {sps spm mpm pos rng cdt mdt : Nat} (ha : sps < 2 ^ 32) :
    wordAt (mkBuf tag dta nsamp bits zero npass mapOff mapSize txt ntxt prc nprc nchan sps spm mpm pos rng cdt mdt) 10 4 = sps := by
  have hr : List.range 4 = [0, 1, 2, 3] := rfl
  simp only [wordAt, hr, List.map, List.sum_cons, List.sum_nil, bAt, mkBuf, u32bytes]
  norm_num
  omega

/-- Field recovery at offset 14 of the synthetic buffer. -/
theorem mk_spm {tag dta nsamp bits zero npass mapOff mapSize txt ntxt prc nprc nchan : Int} {sps spm mpm pos rng cdt mdt : Nat} (ha : spm < 2 ^ 32) :
    wordAt (mkBuf tag dta nsamp bits zero npass mapOff mapSize txt ntxt prc nprc nchan sps spm mpm pos rng cdt mdt) 14 4 = spm := by
  have hr : List.range 4 = [0, 1, 2, 3] := rfl
  simp only [wordAt, hr, List.map, List.sum_cons, List.sum_nil, bAt, mkBuf, u32bytes]
  norm_num
  omega

/-- Field recovery at offset 18 of the synthetic buffer. -/
theorem mk_mpm {tag dta nsamp bits zero npass mapOff mapSize txt ntxt prc nprc nchan : Int} {sps spm mpm pos rng cdt mdt : Nat} (ha : mpm < 2 ^ 32) :
    wordAt (mkBuf tag dta nsamp bits zero npass mapOff mapSize txt ntxt prc nprc nchan sps spm mpm pos rng cdt mdt) 18 4 = mpm := by
  have hr : List.range 4 = [0, 1, 2, 3] := rfl
  simp only [wordAt, hr, List.map, List.sum_cons, List.sum_nil, bAt, mkBuf, u32bytes]
  norm_num
  omega

/-- Field recovery at offset 22 of the synthetic buffer. -/
theorem mk_pos {tag dta nsamp bits zero npass mapOff mapSize txt ntxt prc nprc nchan : Int} {sps spm mpm pos rng cdt mdt : Nat} (ha : pos < 2 ^ 32) :
    wordAt (mkBuf tag dta nsamp bits zero npass mapOff mapSize txt ntxt prc nprc nchan sps spm mpm pos rng cdt mdt) 22 4 = pos := by
  have hr : List.range 4 = [0, 1, 2, 3] := rfl
  simp only [wordAt, hr, List.map, List.sum_cons, List.sum_nil, bAt, mkBuf, u32bytes]
  norm_num
  omega

/-- Field recovery at offset 26 of the synthetic buffer. -/
theorem mk_rng {tag dta nsamp bits zero npass mapOff mapSize txt ntxt prc nprc nchan : Int} {sps spm mpm pos rng cdt mdt : Nat} (ha : rng < 2 ^ 32) :
    wordAt (mkBuf tag dta nsamp bits zero npass mapOff mapSize txt ntxt prc nprc nchan sps spm mpm pos rng cdt mdt) 26 4 = rng := by
  have hr : List.range 4 = [0, 1, 2, 3] := rfl
  simp only [wordAt, hr, List.map, List.sum_cons, List.sum_nil, bAt, mkBuf, u32bytes]
  norm_num
  omega

/-- Field recovery at offset 30 of the synthetic buffer. -/
theorem mk_npass {tag dta nsamp bits zero npass mapOff mapSize txt ntxt prc nprc nchan : Int} {sps spm mpm pos rng cdt mdt : Nat} (ha : -32768 <= npass) (hb : npass < 32768) :
    i16val (bAt (mkBuf tag dta nsamp bits zero npass mapOff mapSize txt ntxt prc nprc nchan sps spm mpm pos rng cdt mdt) 30) (bAt (mkBuf tag dta nsamp bits zero npass mapOff mapSize txt ntxt prc nprc nchan sps spm mpm pos rng cdt mdt) 31) = npass := by
  simp only [bAt, mkBuf, i16val, i16bytes, pow_zero, pow_one, Nat.div_one]
  norm_num
  split_ifs <;> omega

/-- Field recovery at offset 32 of the synthetic buffer. -/
theorem mk_cdt {tag dta nsamp bits zero npass mapOff mapSize txt ntxt prc nprc nchan : Int} {sps spm mpm pos rng cdt mdt : Nat} (ha : cdt < 2 ^ 32) :
    wordAt (mkBuf tag dta nsamp bits zero npass mapOff mapSize txt ntxt prc nprc nchan sps spm mpm pos rng cdt mdt) 32 4 = cdt := by
  have hr : List.range 4 = [0, 1, 2, 3] := rfl
  simp only [wordAt, hr, List.map, List.sum_cons, List.sum_nil, bAt, mkBuf, u32bytes]
  norm_num
  omega

/-- Field recovery at offset 36 of the synthetic buffer. -/
theorem mk_mdt {tag dta nsamp bits zero npass mapOff mapSize txt ntxt prc nprc nchan : Int} {sps spm mpm pos rng cdt mdt : Nat} (ha : mdt < 2 ^ 32) :
    wordAt (mkBuf tag dta nsamp bits zero npass mapOff mapSize txt ntxt prc nprc nchan sps spm mpm pos rng cdt mdt) 36 4 = mdt := by
  have hr : List.range 4 = [0, 1, 2, 3] := rfl
  simp only [wordAt, hr, List.map, List.sum_cons, List.sum_nil, bAt, mkBuf, u32bytes]
  norm_num
  omega

/-- Field recovery at offset 40 of the synthetic buffer. -/
theorem mk_mapOff {tag dta nsamp bits zero npass mapOff mapSize txt ntxt prc nprc nchan : Int} {sps spm mpm pos rng cdt mdt : Nat} (ha : -32768 <= mapOff) (hb : mapOff < 32768) :
    i16val (bAt (mkBuf tag dta nsamp bits zero npass mapOff mapSize txt ntxt prc nprc nchan sps spm mpm pos rng cdt mdt) 40) (bAt (mkBuf tag dta nsamp bits zero npass mapOff mapSize txt ntxt prc nprc nchan sps spm mpm pos rng cdt mdt) 41) = mapOff := by
  simp only [bAt, mkBuf, i16val, i16bytes, pow_zero, pow_one, Nat.div_one]
  norm_num
  split_ifs <;> omega

/-- Field recovery at offset 42 of the synthetic buffer. -/
theorem mk_mapSize {tag dta nsamp bits zero npass mapOff mapSize txt ntxt prc nprc nchan : Int} {sps spm mpm pos rng cdt mdt : Nat} (ha : -32768 <= mapSize) (hb : mapSize < 32768) :
    i16val (bAt (mkBuf tag dta nsamp bits zero npass mapOff mapSize txt ntxt prc nprc nchan sps spm mpm pos rng cdt mdt) 42) (bAt (mkBuf tag dta nsamp bits zero npass mapOff mapSize txt ntxt prc nprc nchan sps spm mpm pos rng cdt mdt) 43) = mapSize := by
  simp only [bAt, mkBuf, i16val, i16bytes, pow_zero, pow_one, Nat.div_one]
  norm_num
  split_ifs <;> omega

/-- Field recovery at offset 44 of the synthetic buffer. -/
theorem mk_txt {tag dta nsamp bits zero npass mapOff mapSize txt ntxt prc nprc nchan : Int} {sps spm mpm pos rng cdt mdt : Nat} (ha : -32768 <= txt) (hb : txt < 32768) :
    i16val (bAt (mkBuf tag dta nsamp bits zero npass mapOff mapSize txt ntxt prc nprc nchan sps spm mpm pos rng cdt mdt) 44) (bAt (mkBuf tag dta nsamp bits zero npass mapOff mapSize txt ntxt prc nprc nchan sps spm mpm pos rng cdt mdt) 45) = txt := by
  simp only [bAt, mkBuf, i16val, i16bytes, pow_zero, pow_one, Nat.div_one]
  norm_num
  split_ifs <;> omega

/-- Field recovery at offset 46 of the synthetic buffer. -/
theorem mk_ntxt {tag dta nsamp bits zero npass mapOff mapSize txt ntxt prc nprc nchan : Int} {sps spm mpm pos rng cdt mdt : Nat} (ha : -32768 <= ntxt) (hb : ntxt < 32768) :
    i16val (bAt (mkBuf tag dta nsamp bits zero npass mapOff mapSize txt ntxt prc nprc nchan sps spm mpm pos rng cdt mdt) 46) (bAt (mkBuf tag dta nsamp bits zero npass mapOff mapSize txt ntxt prc nprc nchan sps spm mpm pos rng cdt mdt) 47) = ntxt := by
  simp only [bAt, mkBuf, i16val, i16bytes, pow_zero, pow_one, Nat.div_one]
  norm_num
  split_ifs <;> omega

/-- Field recovery at offset 48 of the synthetic buffer. -/
theorem mk_prc {tag dta nsamp bits zero npass mapOff mapSize txt ntxt prc nprc nchan : Int} {sps spm mpm pos rng cdt mdt : Nat} (ha : -32768 <= prc) (hb : prc < 32768) :
    i16val (bAt (mkBuf tag dta nsamp bits zero npass mapOff mapSize txt ntxt prc nprc nchan sps spm mpm pos rng cdt mdt) 48) (bAt (mkBuf tag dta nsamp bits zero npass mapOff mapSize txt ntxt prc nprc nchan sps spm mpm pos rng cdt mdt) 49) = prc := by
  simp only [bAt, mkBuf, i16val, i16bytes, pow_zero, pow_one, Nat.div_one]
  norm_num
  split_ifs <;> omega

/-- Field recovery at offset 50 of the synthetic buffer. -/
theorem mk_nprc {tag dta nsamp bits zero npass mapOff mapSize txt ntxt prc nprc nchan : Int} {sps spm mpm pos rng cdt mdt : Nat} (ha : -32768 <= nprc) (hb : nprc < 32768) :
    i16val (bAt (mkBuf tag dta nsamp bits zero npass mapOff mapSize txt ntxt prc nprc nchan sps spm mpm pos rng cdt mdt) 50) (bAt (mkBuf tag dta nsamp bits zero npass mapOff mapSize txt ntxt prc nprc nchan sps spm mpm pos rng cdt mdt) 51) = nprc := by
  simp only [bAt, mkBuf, i16val, i16bytes, pow_zero, pow_one, Nat.div_one]
  norm_num
  split_ifs <;> omega

/-- Field recovery at offset 52 of the synthetic buffer. -/
theorem mk_nchan {tag dta nsamp bits zero npass mapOff mapSize txt ntxt prc nprc nchan : Int} {sps spm mpm pos rng cdt mdt : Nat} (ha : -32768 <= nchan) (hb : nchan < 32768) :
    i16val (bAt (mkBuf tag dta nsamp bits zero npass mapOff mapSize txt ntxt prc nprc nchan sps spm mpm pos rng cdt mdt) 52) (bAt (mkBuf tag dta nsamp bits zero npass mapOff mapSize txt ntxt prc nprc nchan sps spm mpm pos rng cdt mdt) 53) = nchan := by
  simp only [bAt, mkBuf, i16val, i16bytes, pow_zero, pow_one, Nat.div_one]
  norm_num
  split_ifs <;> omega

/-- C1.  Header field fidelity: (1) every byte stream of at least 54 bytes
decodes to exactly the documented field sequence, each field read at its
fixed byte offset (0, 2, 4, 6, 8, 10, 14, 18, 22, 26, 30, 32, 36, 40, 42,
44, 46, 48, 50, 52) as a little-endian signed 16-bit integer or a
little-endian 32-bit IEEE-754 float; (2) a synthetically constructed
buffer with known in-range values at those offsets decodes back to exactly
those values. -/
theorem C1_header_field_fidelity :
    (∀ s : ByteStream, 54 <= s.len →
      decodeHeader s = .ok
        [("rh_tag", .intv (i16val (bAt s 0) (bAt s 1))),
         ("rh_data", .intv (i16val (bAt s 2) (bAt s 3))),
         ("rh_nsamp", .intv (i16val (bAt s 4) (bAt s 5))),
         ("rh_bits", .intv (i16val (bAt s 6) (bAt s 7))),
         ("rh_zero", .intv (i16val (bAt s 8) (bAt s 9))),
         ("rhf_sps", .floatv (float32ToQ (wordAt s 10 4))),
         ("rhf_spm", .floatv (float32ToQ (wordAt s 14 4))),
         ("rhf_mpm", .floatv (float32ToQ (wordAt s 18 4))),
         ("rhf_position", .floatv (float32ToQ (wordAt s 22 4))),
         ("rhf_range", .floatv (float32ToQ (wordAt s 26 4))),
         ("rh_npass", .intv (i16val (bAt s 30) (bAt s 31))),
         ("rhb_cdt", .floatv (float32ToQ (wordAt s 32 4))),
         ("rhb_mdt", .floatv (float32ToQ (wordAt s 36 4))),
         ("rh_mapOffset", .intv (i16val (bAt s 40) (bAt s 41))),
         ("rh_mapSize", .intv (i16val (bAt s 42) (bAt s 43))),
         ("rh_text", .intv (i16val (bAt s 44) (bAt s 45))),
         ("rh_ntext", .intv (i16val (bAt s 46) (bAt s 47))),
         ("rh_proc", .intv (i16val (bAt s 48) (bAt s 49))),
         ("rh_nproc", .intv (i16val (bAt s 50) (bAt s 51))),
         ("rh_nchan", .intv (i16val (bAt s 52) (bAt s 53)))]) ∧
    (∀ (tag dta nsamp bits zero npass mapOff mapSize txt ntxt prc nprc nchan : Int) (sps spm mpm pos rng cdt mdt : Nat)
      (hatag : -32768 <= tag) (hbtag : tag < 32768) (hadta : -32768 <= dta) (hbdta : dta < 32768) (hansamp : -32768 <= nsamp) (hbnsamp : nsamp < 32768) (habits : -32768 <= bits) (hbbits : bits < 32768) (hazero : -32768 <= zero) (hbzero : zero < 32768) (hanpass : -32768 <= npass) (hbnpass : npass < 32768) (hamapOff : -32768 <= mapOff) (hbmapOff : mapOff < 32768) (hamapSize : -32768 <= mapSize) (hbmapSize : mapSize < 32768) (hatxt : -32768 <= txt) (hbtxt : txt < 32768) (hantxt : -32768 <= ntxt) (hbntxt : ntxt < 32768) (haprc : -32768 <= prc) (hbprc : prc < 32768) (hanprc : -32768 <= nprc) (hbnprc : nprc < 32768) (hanchan : -32768 <= nchan) (hbnchan : nchan < 32768)
      (hasps : sps < 2 ^ 32) (haspm : spm < 2 ^ 32) (hampm : mpm < 2 ^ 32) (hapos : pos < 2 ^ 32) (harng : rng < 2 ^ 32) (hacdt : cdt < 2 ^ 32) (hamdt : mdt < 2 ^ 32),
      decodeHeader (mkBuf tag dta nsamp bits zero npass mapOff mapSize txt ntxt prc nprc nchan sps spm mpm pos rng cdt mdt) = .ok
        [("rh_tag", .intv tag),
         ("rh_data", .intv dta),
         ("rh_nsamp", .intv nsamp),
         ("rh_bits", .intv bits),
         ("rh_zero", .intv zero),
         ("rhf_sps", .floatv (float32ToQ sps)),
         ("rhf_spm", .floatv (float32ToQ spm)),
         ("rhf_mpm", .floatv (float32ToQ mpm)),
         ("rhf_position", .floatv (float32ToQ pos)),
         ("rhf_range", .floatv (float32ToQ rng)),
         ("rh_npass", .intv npass),
         ("rhb_cdt", .floatv (float32ToQ cdt)),
         ("rhb_mdt", .floatv (float32ToQ mdt)),
         ("rh_mapOffset", .intv mapOff),
         ("rh_mapSize", .intv mapSize),
         ("rh_text", .intv txt),
         ("rh_ntext", .intv ntxt),
         ("rh_proc", .intv prc),
         ("rh_nproc", .intv nprc),
         ("rh_nchan", .intv nchan)]) := by
  constructor
  · exact decodeHeader_eq
  · intro tag dta nsamp bits zero npass mapOff mapSize txt ntxt prc nprc nchan sps spm mpm pos rng cdt mdt hatag hbtag hadta hbdta hansamp hbnsamp habits hbbits hazero hbzero hanpass hbnpass hamapOff hbmapOff hamapSize hbmapSize hatxt hbtxt hantxt hbntxt haprc hbprc hanprc hbnprc hanchan hbnchan hasps haspm hampm hapos harng hacdt hamdt
    rw [decodeHeader_eq _ (by norm_num [mkBuf])]
    rw [mk_tag hatag hbtag, mk_dta hadta hbdta, mk_nsamp hansamp hbnsamp, mk_bits habits hbbits, mk_zero hazero hbzero, mk_sps hasps, mk_spm haspm, mk_mpm hampm, mk_pos hapos, mk_rng harng, mk_npass hanpass hbnpass, mk_cdt hacdt, mk_mdt hamdt, mk_mapOff hamapOff hbmapOff, mk_mapSize hamapSize hbmapSize, mk_txt hatxt hbtxt, mk_ntxt hantxt hbntxt, mk_prc haprc hbprc, mk_nprc hanprc hbnprc, mk_nchan hanchan hbnchan]

/-- Witness for C1: concrete known values decode back exactly
(the float word 1065353216 is the bit pattern of 1.0). -/
theorem C1_witness :
    decodeHeader (mkBuf (-1) 2 3 4 5 6 7 8 9 10 11 12 13 1065353216 0 1 2 3 4 5) = .ok
      [("rh_tag", .intv (-1)), ("rh_data", .intv 2), ("rh_nsamp", .intv 3),
       ("rh_bits", .intv 4), ("rh_zero", .intv 5),
       ("rhf_sps", .floatv (float32ToQ 1065353216)),
       ("rhf_spm", .floatv (float32ToQ 0)), ("rhf_mpm", .floatv (float32ToQ 1)),
       ("rhf_position", .floatv (float32ToQ 2)), ("rhf_range", .floatv (float32ToQ 3)),
       ("rh_npass", .intv 6), ("rhb_cdt", .floatv (float32ToQ 4)),
       ("rhb_mdt", .floatv (float32ToQ 5)), ("rh_mapOffset", .intv 7),
       ("rh_mapSize", .intv 8), ("rh_text", .intv 9), ("rh_ntext", .intv 10),
       ("rh_proc", .intv 11), ("rh_nproc", .intv 12), ("rh_nchan", .intv 13)] :=
  C1_header_field_fidelity.2 (-1) 2 3 4 5 6 7 8 9 10 11 12 13 1065353216 0 1 2 3 4 5
    (by norm_num) (by norm_num) (by norm_num) (by norm_num) (by norm_num) (by norm_num)
    (by norm_num) (by norm_num) (by norm_num) (by norm_num) (by norm_num) (by norm_num)
    (by norm_num) (by norm_num) (by norm_num) (by norm_num) (by norm_num) (by norm_num)
    (by norm_num) (by norm_num) (by norm_num) (by norm_num) (by norm_num) (by norm_num)
    (by norm_num) (by norm_num) (by norm_num) (by norm_num) (by norm_num) (by norm_num)
    (by norm_num) (by norm_num) (by norm_num)

/-- C10.  For every input stream of at least 54 bytes, header decoding
succeeds regardless of the byte values, and the returned mapping has
exactly the twenty documented keys in their fixed insertion order. -/
theorem C10_header_mapping_invariant (s : ByteStream) (h : 54 <= s.len) :
    ∃ info, decodeHeader s = .ok info ∧
      info.map Prod.fst =
        ["rh_tag", "rh_data", "rh_nsamp", "rh_bits", "rh_zero", "rhf_sps",
         "rhf_spm", "rhf_mpm", "rhf_position", "rhf_range", "rh_npass",
         "rhb_cdt", "rhb_mdt", "rh_mapOffset", "rh_mapSize", "rh_text",
         "rh_ntext", "rh_proc", "rh_nproc", "rh_nchan"] :=
  ⟨_, decodeHeader_eq s h, rfl⟩

/-- Witness for C10 on a concrete 54-byte stream of zero bytes. -/
theorem C10_witness :
    ∃ info, decodeHeader ⟨54, fun _ => 0⟩ = .ok info ∧
      info.map Prod.fst =
        ["rh_tag", "rh_data", "rh_nsamp", "rh_bits", "rh_zero", "rhf_sps",
         "rhf_spm", "rhf_mpm", "rhf_position", "rhf_range", "rh_npass",
         "rhb_cdt", "rhb_mdt", "rh_mapOffset", "rh_mapSize", "rh_text",
         "rh_ntext", "rh_proc", "rh_nproc", "rh_nchan"] :=
  C10_header_mapping_invariant ⟨54, fun _ => 0⟩ (by norm_num)

/-- C2.  Offset resolution: `head_offset` depends on no header field other
than `rh_data` (the data-offset code) and `rh_nchan` (the channel count);
it equals `1024 * rh_data` when `rh_data < 1024` and `1024 * rh_nchan`
otherwise; in particular a decoded header with code 200 and 3 channels
gives `1024 * 200`, and one with code 1024 and 3 channels gives
`1024 * 3`. -/
theorem C2_offset_resolution :
    (∀ i1 i2 : List (String × HVal),
      i1.lookup "rh_data" = i2.lookup "rh_data" →
      i1.lookup "rh_nchan" = i2.lookup "rh_nchan" →
      headOffsetOf i1 = headOffsetOf i2) ∧
    (∀ info : List (String × HVal),
      headOffsetOf info =
        if geti info "rh_data" < 1024 then 1024 * geti info "rh_data"
        else 1024 * geti info "rh_nchan") ∧
    (decodeHeader (mkBuf 0 200 0 0 0 0 0 0 0 0 0 0 3 0 0 0 0 0 0 0)).map headOffsetOf =
      .ok (1024 * 200) ∧
    (decodeHeader (mkBuf 0 1024 0 0 0 0 0 0 0 0 0 0 3 0 0 0 0 0 0 0)).map headOffsetOf =
      .ok (1024 * 3) := by
  refine ⟨?_, fun _ => rfl, by rfl, by rfl⟩
  intro i1 i2 h1 h2
  simp [headOffsetOf, geti, h1, h2]

/-- C3.  Sign recentring: an 8- or 16-bit sample with raw unsigned value
`v` decodes to `v - 2^(bits-1)` (so 0 maps to -128 resp. -32768 and the
maxima map to 127 resp. 32767), while a 32-bit sample is unchanged by the
recentring step. -/
theorem C3_sign_recentring :
    (∀ v : Nat, v < 256 → recentre 8 (decodeWord 8 v) = (v : Int) - 128) ∧
    (∀ v : Nat, v < 65536 → recentre 16 (decodeWord 16 v) = (v : Int) - 32768) ∧
    (∀ w : Nat, recentre 32 (decodeWord 32 w) = decodeWord 32 w) ∧
    recentre 8 (decodeWord 8 0) = -128 ∧ recentre 8 (decodeWord 8 255) = 127 ∧
    recentre 16 (decodeWord 16 0) = -32768 ∧ recentre 16 (decodeWord 16 65535) = 32767 := by
  refine ⟨?_, ?_, ?_, by decide, by decide, by decide, by decide⟩
  · intro v _
    simp [recentre, decodeWord]
  · intro v _
    simp [recentre, decodeWord]
  · intro w
    simp [recentre]

theorem exceptBind_ok {E A B : Type} (a : A) (f : A → Except E B) :
    (Except.ok a : Except E A) >>= f = f a := rfl

theorem exceptBind_err {E A B : Type} (e : E) (f : A → Except E B) :
    (Except.error e : Except E A) >>= f = Except.error e := rfl

theorem exceptMap_ok {E A B : Type} (a : A) (f : A → B) :
    Except.map f (Except.ok a : Except E A) = Except.ok (f a) := rfl

theorem exceptMap_err {E A B : Type} (e : E) (f : A → B) :
    Except.map f (Except.error e : Except E A) = Except.error e := rfl

/-- C9.  UnsupportedSampleWidth: when the decoded `rh_bits` is not one of
8, 16, 32, decoding fails with the unsupported-sample-width error (the
source's missing dtype branch leaves `datatype` unbound and the read
raises); no default sample type is substituted and no matrix is
returned. -/
theorem C9_unsupported_sample_width (s : ByteStream) (info : List (String × HVal))
    (ss ns : Int) (hinfo : decodeHeader s = .ok info)
    (h8 : geti info "rh_bits" ≠ 8) (h16 : geti info "rh_bits" ≠ 16)
    (h32 : geti info "rh_bits" ≠ 32) :
    readdzt s ss ns = .error .unsupportedSampleWidth := by
  simp [readdzt, hinfo, sampleWidth, h8, h16, h32, exceptBind_ok, exceptBind_err]

/-- C4.  Matrix shape and orientation: when the flat decoded sample count
is an exact multiple of `k = samples_per_trace * num_channels`, the
reshape succeeds with exactly `k` rows and `length / k` columns, and
column `i` is the `i`-th consecutive chunk of `k` flat samples — the
`i`-th scan's full multi-channel trace in stream order. -/
theorem C4_matrix_shape (k : Nat) (v : List Int) (hk : 0 < k) (hdvd : k ∣ v.length) :
    ∃ m, reshapeT (k : Int) v = .ok m ∧
      m.length = k ∧ (∀ row ∈ m, row.length = v.length / k) ∧
      ∀ i < v.length / k, colOf m i = (v.drop (i * k)).take k := by
  obtain ⟨q, hq⟩ := hdvd
  have hcond : 0 < (k : Int) ∧ (v.length : Int) % (k : Int) = 0 := by
    constructor
    · exact_mod_cast hk
    · rw [hq]
      push_cast
      exact Int.mul_emod_right k q
  refine ⟨_, by rw [reshapeT, if_pos hcond], ?_, ?_, ?_⟩
  · simp
  · intro row hrow
    simp only [List.mem_map, List.mem_range] at hrow
    obtain ⟨r, hr, hrow⟩ := hrow
    simp [← hrow, Int.toNat_ofNat]
  · intro i hi
    have hkk : (k : Int).toNat = k := by omega
    have hiq : i < q := by
      have := Nat.mul_div_cancel_left q hk
      rw [hq] at hi
      omega
    have hlen : i * k + k ≤ v.length := by
      rw [hq]
      nlinarith
    apply List.ext_getElem
    · simp [colOf, hkk, List.length_take, List.length_drop]
      omega
    · intro r h1 h2
      have hrk : r < k := by
        simpa [colOf, hkk] using h1
      simp only [colOf, hkk, List.getElem_map, List.getElem_range]
      have hi2 : i < (List.map (fun c => v.getD (c * k + r) 0) (List.range (v.length / k))).length := by
        simpa using hi
      rw [List.getD_eq_getElem _ _ hi2, List.getElem_map, List.getElem_range,
        List.getD_eq_getElem _ _ (show i * k + r < v.length by omega),
        List.getElem_take, List.getElem_drop]

/-- Reduction of the decode pipeline: under a successfully decoded header
with nonnegative sample geometry, `readdzt` is the reshape of the sample
vector read at `head_offset + start_scan * nchan * nsamp * width`. -/
theorem readdzt_run (s : ByteStream) (info : List (String × HVal))
    (p c w off ss : Nat) (ns : Int)
    (hinfo : decodeHeader s = .ok info)
    (hp : geti info "rh_nsamp" = (p : Int))
    (hc : geti info "rh_nchan" = (c : Int))
    (hw : sampleWidth (geti info "rh_bits") = some w)
    (hbw : geti info "rh_bits" = ((8 * w : Nat) : Int))
    (hoff : headOffsetOf info = (off : Int)) :
    readdzt s (ss : Int) ns =
      Except.map (fun m => (m, info))
        (reshapeT ((p : Int) * (c : Int))
          ((List.range (if 0 < ns then
              min (ns.toNat * p * c) ((s.len - (off + ss * c * p * w)) / w)
            else (s.len - (off + ss * c * p * w)) / w)).map
            fun i => recentre (geti info "rh_bits")
              (decodeWord (geti info "rh_bits")
                (wordAt s (off + ss * c * p * w + i * w) w)))) := by
  have hstart : Int.tdiv ((ss : Int) * geti info "rh_nchan" * geti info "rh_nsamp" *
      geti info "rh_bits") 8 = ((ss * c * p * w : Nat) : Int) := by
    rw [hc, hp, hbw]
    push_cast
    rw [show (ss : Int) * c * p * (8 * w) = 8 * (ss * c * p * w) by ring]
    rw [Int.mul_tdiv_cancel_left _ (by norm_num)]
  simp only [readdzt, hinfo, exceptBind_ok, hw, hstart]
  rw [hoff]
  have hnneg : ¬ ((off : Int) + ((ss * c * p * w : Nat) : Int) < 0) := by
    rw [not_lt]
    positivity
  simp only [fromfileCount, if_neg hnneg]
  have htn : ((off : Int) + ((ss * c * p * w : Nat) : Int)).toNat = off + ss * c * p * w := by
    omega
  rw [htn]
  by_cases hns : 0 < ns
  · obtain ⟨n, rfl⟩ := Int.eq_ofNat_of_zero_le hns.le
    have hcnt : ¬ (((n : Int)) * geti info "rh_nsamp" * geti info "rh_nchan" < 0) := by
      rw [hp, hc, not_lt]
      positivity
    have hcnt2 : (((n : Int)) * geti info "rh_nsamp" * geti info "rh_nchan").toNat
        = n * p * c := by
      rw [hp, hc, ← Nat.cast_mul, ← Nat.cast_mul, Int.toNat_natCast]
    simp only [if_pos hns, if_neg hcnt, exceptBind_ok, hcnt2, hp, hc,
      Int.toNat_natCast, List.map_map, Function.comp]
    rfl
  · simp only [if_neg hns, exceptBind_ok]
    norm_num
    simp only [hp, hc, List.map_map, Function.comp]
    rfl

/-- Successful reshape: when the flat length is exactly `k * q`, the result
is the `k × q` index-mapped matrix. -/
theorem reshapeT_ok (k q : Nat) (v : List Int) (hk : 0 < k) (hv : v.length = k * q) :
    reshapeT (k : Int) v = .ok
      ((List.range k).map fun r => (List.range q).map fun c => v.getD (c * k + r) 0) := by
  simp only [reshapeT, Int.toNat_natCast, hv, Nat.mul_div_cancel_left q hk]
  rw [if_pos]
  constructor
  · exact_mod_cast hk
  · push_cast
    exact Int.mul_emod_right k q

/-- `getD` of a mapped range below the bound. -/
theorem getD_map_range (n : Nat) (f : Nat → Int) (i : Nat) (hi : i < n) :
    ((List.range n).map f).getD i 0 = f i := by
  rw [List.getD_eq_getElem _ _ (by simpa using hi), List.getElem_map, List.getElem_range]

/-- Column extraction from the index-mapped matrix. -/
theorem run_col (k q : Nat) (v : List Int) (j : Nat) (hj : j < q) :
    colOf ((List.range k).map fun r => (List.range q).map fun c => v.getD (c * k + r) 0) j
      = (List.range k).map fun r => v.getD (j * k + r) 0 := by
  simp only [colOf, List.map_map, Function.comp]
  apply List.map_congr_left
  intro r hr
  exact getD_map_range q (fun c => v.getD (c * k + r) 0) j hj

/-- C5.  Scan windowing: on a stream holding exactly `S` complete scans,
decoding with `start_scan = ss` and `n_scans = ns` (with
`ss + ns ≤ S`, `0 < ns`) succeeds with the same header mapping as the
full decode, yields exactly `ns` columns, and column `j` of the windowed
matrix equals column `ss + j` of the full decode. -/
theorem C5_scan_windowing (s : ByteStream) (info : List (String × HVal))
    (p c w off S ss ns : Nat)
    (hinfo : decodeHeader s = .ok info)
    (hp : geti info "rh_nsamp" = (p : Int))
    (hc : geti info "rh_nchan" = (c : Int))
    (hw : sampleWidth (geti info "rh_bits") = some w)
    (hbw : geti info "rh_bits" = ((8 * w : Nat) : Int))
    (hoff : headOffsetOf info = (off : Int))
    (hlen : s.len = off + S * (p * c) * w)
    (hp0 : 0 < p) (hc0 : 0 < c) (hns : 0 < ns) (hwin : ss + ns ≤ S) :
    ∃ mfull mwin,
      readdzt s 0 (-1) = .ok (mfull, info) ∧
      readdzt s (ss : Int) (ns : Int) = .ok (mwin, info) ∧
      mwin.length = p * c ∧ (∀ row ∈ mwin, row.length = ns) ∧
      ∀ j < ns, colOf mwin j = colOf mfull (ss + j) := by
  have hw0 : 0 < w := by
    simp only [sampleWidth] at hw
    split_ifs at hw <;> omega
  have hk0 : 0 < p * c := Nat.mul_pos hp0 hc0
  have hfull := readdzt_run s info p c w off 0 (-1) hinfo hp hc hw hbw hoff
  have hnf : (s.len - (off + 0 * c * p * w)) / w = S * (p * c) := by
    have h0 : (0 : Nat) * c * p * w = 0 := by ring
    rw [h0, Nat.add_zero, hlen]
    have h1 : off + S * (p * c) * w - off = S * (p * c) * w := by omega
    rw [h1, Nat.mul_div_cancel _ hw0]
  rw [if_neg (by norm_num : ¬ (0:Int) < -1), hnf] at hfull
  simp only [Nat.zero_mul, Nat.add_zero, Nat.cast_zero] at hfull
  have hwinr := readdzt_run s info p c w off ss (ns : Int) hinfo hp hc hw hbw hoff
  have hpos : (0:Int) < (ns:Int) := by exact_mod_cast hns
  rw [if_pos hpos, Int.toNat_natCast] at hwinr
  have havail : (s.len - (off + ss * c * p * w)) / w = (S - ss) * (p * c) := by
    have e1 : ss * c * p * w = ss * (p * c) * w := by ring
    have e2 : s.len - (off + ss * c * p * w) = (S - ss) * (p * c) * w := by
      rw [hlen, e1, Nat.sub_mul, Nat.sub_mul]
      omega
    rw [e2, Nat.mul_div_cancel _ hw0]
  rw [havail] at hwinr
  have hmin : min (ns * p * c) ((S - ss) * (p * c)) = ns * p * c := by
    apply Nat.min_eq_left
    calc ns * p * c = ns * (p * c) := by ring
      _ ≤ (S - ss) * (p * c) := Nat.mul_le_mul_right _ (by omega)
  rw [hmin] at hwinr
  have hcast : ((p : Int)) * (c : Int) = ((p * c : Nat) : Int) := by push_cast; ring
  rw [hcast] at hfull hwinr
  rw [reshapeT_ok (p * c) S _ hk0
    (by simp only [List.length_map, List.length_range]; ring)] at hfull
  rw [reshapeT_ok (p * c) ns _ hk0
    (by simp only [List.length_map, List.length_range]; ring)] at hwinr
  rw [exceptMap_ok] at hfull hwinr
  refine ⟨_, _, hfull, hwinr, ?_, ?_, ?_⟩
  · simp
  · intro row hrow
    simp only [List.mem_map, List.mem_range] at hrow
    obtain ⟨r, _, hr⟩ := hrow
    simp [← hr]
  · intro j hj
    rw [run_col (p * c) ns _ j hj, run_col (p * c) S _ (ss + j) (by omega)]
    apply List.map_congr_left
    intro r hr
    rw [List.mem_range] at hr
    have hb1 : j * (p * c) + r < ns * p * c := by
      calc j * (p * c) + r < j * (p * c) + p * c := by omega
        _ = (j + 1) * (p * c) := by ring
        _ ≤ ns * (p * c) := Nat.mul_le_mul_right _ hj
        _ = ns * p * c := by ring
    have hb2 : (ss + j) * (p * c) + r < S * (p * c) := by
      calc (ss + j) * (p * c) + r < (ss + j) * (p * c) + p * c := by omega
        _ = (ss + j + 1) * (p * c) := by ring
        _ ≤ S * (p * c) := Nat.mul_le_mul_right _ (by omega)
    rw [getD_map_range _ _ _ hb1, getD_map_range _ _ _ hb2]
    have hpos2 : off + ss * c * p * w + (j * (p * c) + r) * w
        = off + ((ss + j) * (p * c) + r) * w := by ring
    rw [hpos2]

set_option maxRecDepth 8000 in
/-- C6.  End-to-end scenario: a 1024-byte header with
`bits_per_sample = 16`, `samples_per_trace = 256`, `num_channels = 1`,
`data_offset_code = 1024`, followed by `256 * 5` little-endian 16-bit
words of value 32768, decodes to a 256 × 5 all-zero matrix and a header
mapping whose `rh_nsamp` field is 256. -/
theorem C6_end_to_end :
    readdzt c6stream 0 (-1) = .ok (List.replicate 256 (List.replicate 5 0), c6info) ∧
    geti c6info "rh_nsamp" = 256 := by
  refine ⟨?_, rfl⟩
  have hinfo : decodeHeader c6stream = .ok c6info := by
    rw [decodeHeader_eq _ (by norm_num [c6stream])]
    simp only [c6info, Except.ok.injEq, List.cons.injEq, Prod.mk.injEq, HVal.intv.injEq,
      HVal.floatv.injEq, and_true, true_and]
    refine ⟨?_, ?_, ?_, ?_, ?_, ?_, ?_, ?_, ?_, ?_, ?_, ?_, ?_, ?_, ?_, ?_, ?_, ?_, ?_, ?_⟩ <;>
      first
      | decide
      | exact congrArg float32ToQ (by decide)
  have h := readdzt_run c6stream c6info 256 1 2 1024 0 (-1) hinfo rfl rfl rfl rfl rfl
  rw [if_neg (by norm_num : ¬ (0:Int) < -1)] at h
  simp only [Nat.zero_mul, Nat.add_zero, Nat.cast_zero, Nat.mul_zero] at h
  have hn : (c6stream.len - 1024) / 2 = 1280 := by norm_num [c6stream]
  rw [hn] at h
  have hsamp : ∀ i : Nat, recentre (geti c6info "rh_bits")
      (decodeWord (geti c6info "rh_bits") (wordAt c6stream (1024 + i * 2) 2)) = 0 := by
    intro i
    have hb0 : bAt c6stream (1024 + i * 2 + 0) = 0 := by
      simp only [bAt, c6stream]
      rw [if_neg (by omega), if_neg (by omega), if_neg (by omega), if_neg (by omega),
        if_neg (by omega)]
    have hb1 : bAt c6stream (1024 + i * 2 + 1) = 128 := by
      simp only [bAt, c6stream]
      rw [if_neg (by omega), if_neg (by omega), if_neg (by omega), if_neg (by omega),
        if_pos (by omega)]
    have hw2 : wordAt c6stream (1024 + i * 2) 2 = 32768 := by
      have hr : List.range 2 = [0, 1] := rfl
      simp only [wordAt, hr, List.map, List.sum_cons, List.sum_nil, hb0, hb1]
      norm_num
    rw [hw2]
    rfl
  rw [List.map_congr_left (fun i _ => hsamp i)] at h
  have hrepl : (List.range 1280).map (fun _ => (0 : Int)) = List.replicate 1280 0 := by
    simp
  rw [hrepl] at h
  have hcast : ((256 : Nat) : Int) * ((1 : Nat) : Int) = (((256 * 1 : Nat)) : Int) := by
    norm_num
  rw [hcast, reshapeT_ok (256 * 1) 5 _ (by norm_num) (by simp)] at h
  have hgd : ∀ i : Nat, (List.replicate 1280 (0 : Int)).getD i 0 = 0 := by
    intro i
    rcases lt_or_ge i 1280 with hlt | hge
    · rw [List.getD_eq_getElem _ _ (by simpa using hlt), List.getElem_replicate]
    · rw [List.getD_eq_default _ _ (by simpa using hge)]
  simp only [hgd] at h
  rw [exceptMap_ok] at h
  simpa using h

/-- The 54-byte test stream decodes to its header mapping. -/
theorem smallInfo_eq : decodeHeader smallStream = .ok smallInfo := by rfl

/-- The C7 test stream decodes to its header mapping. -/
theorem c7info_eq : decodeHeader c7stream = .ok c7info := by rfl

/-- C7.  IncompleteTrace: whenever the trace size does not divide the
flat decoded sample count, the reshape fails with `incompleteTrace`; in
particular a stream yielding `512 * 2 * 10 + 1` samples with
`samples_per_trace = 512`, `num_channels = 2` fails. -/
theorem C7_incomplete_trace :
    (∀ (k : Int) (v : List Int), ¬ k ∣ (v.length : Int) →
      reshapeT k v = .error .incompleteTrace) ∧
    readdzt c7stream 0 (-1) = .error .incompleteTrace := by
  have hgen : ∀ (k : Int) (v : List Int), ¬ k ∣ (v.length : Int) →
      reshapeT k v = .error .incompleteTrace := by
    intro k v h
    rw [reshapeT, if_neg]
    rintro ⟨hk, hmod⟩
    exact h (Int.dvd_of_emod_eq_zero hmod)
  refine ⟨hgen, ?_⟩
  have h := readdzt_run c7stream c7info 512 2 1 2048 0 (-1) c7info_eq rfl rfl rfl rfl rfl
  rw [if_neg (by norm_num : ¬ (0:Int) < -1)] at h
  simp only [Nat.zero_mul, Nat.add_zero, Nat.cast_zero, Nat.mul_zero] at h
  have hn : (c7stream.len - 2048) / 1 = 10241 := by norm_num [c7stream]
  rw [hn] at h
  rw [hgen _ _ (by
    simp only [List.length_map, List.length_range]
    decide)] at h
  rw [exceptMap_err] at h
  exact h

/-- Witness for C7 on a flat vector of `512 * 2 * 10 + 1` samples with
trace size `512 * 2`. -/
theorem C7_witness :
    ¬ ((1024 : Int) ∣ ((List.replicate 10241 (0:Int)).length : Int)) ∧
    reshapeT 1024 (List.replicate 10241 (0:Int)) = .error .incompleteTrace := by
  have hlen : ¬ ((1024 : Int) ∣ ((List.replicate 10241 (0:Int)).length : Int)) := by
    simp only [List.length_replicate]
    decide
  exact ⟨hlen, C7_incomplete_trace.1 1024 _ hlen⟩

/-- Counterexample for C8: requesting `n_scans = 100` from a stream that
holds only 27 scans does not fail with an error — decoding succeeds, and
returns the same result as reading the whole file. -/
theorem C8_counterexample :
    (readdzt smallStream 0 100).isOk = true ∧
    readdzt smallStream 0 100 = readdzt smallStream 0 (-1) := by
  constructor
  · rfl
  · rfl

/-- C8 (amended).  When the requested scan range lies beyond the stream,
decoding does not fail with an out-of-range error: the read is silently
clamped to the samples actually available.  On a stream of exactly `S`
whole scans: (1) an explicit `n_scans > S` with `start_scan = 0` returns
exactly the same result as reading everything — a matrix with all `S`
columns and the same header mapping; (2) a `start_scan` at or beyond `S`
returns, for every `n_scans`, a matrix with the usual
`samples_per_trace * num_channels` rows and zero columns. -/
theorem C8_amended_clamp (s : ByteStream) (info : List (String × HVal))
    (p c w off S : Nat)
    (hinfo : decodeHeader s = .ok info)
    (hp : geti info "rh_nsamp" = (p : Int))
    (hc : geti info "rh_nchan" = (c : Int))
    (hw : sampleWidth (geti info "rh_bits") = some w)
    (hbw : geti info "rh_bits" = ((8 * w : Nat) : Int))
    (hoff : headOffsetOf info = (off : Int))
    (hlen : s.len = off + S * (p * c) * w)
    (hp0 : 0 < p) (hc0 : 0 < c) :
    (∀ ns : Int, (S : Int) < ns →
      readdzt s 0 ns = readdzt s 0 (-1) ∧
      ∃ m, readdzt s 0 ns = .ok (m, info) ∧
        m.length = p * c ∧ ∀ row ∈ m, row.length = S) ∧
    (∀ (ss : Nat) (ns : Int), S ≤ ss →
      ∃ m, readdzt s (ss : Int) ns = .ok (m, info) ∧
        m.length = p * c ∧ ∀ row ∈ m, row.length = 0) := by
  have hw0 : 0 < w := by
    simp only [sampleWidth] at hw
    split_ifs at hw <;> omega
  have hk0 : 0 < p * c := Nat.mul_pos hp0 hc0
  have hcast : ((p : Int)) * (c : Int) = ((p * c : Nat) : Int) := by push_cast; ring
  constructor
  · intro ns hS
    have hnf : (s.len - (off + 0 * c * p * w)) / w = S * (p * c) := by
      have h0 : (0 : Nat) * c * p * w = 0 := by ring
      rw [h0, Nat.add_zero, hlen]
      have h1 : off + S * (p * c) * w - off = S * (p * c) * w := by omega
      rw [h1, Nat.mul_div_cancel _ hw0]
    have hfull := readdzt_run s info p c w off 0 (-1) hinfo hp hc hw hbw hoff
    rw [if_neg (by norm_num : ¬ (0:Int) < -1), hnf] at hfull
    simp only [Nat.zero_mul, Nat.add_zero, Nat.cast_zero] at hfull
    have hwinr := readdzt_run s info p c w off 0 ns hinfo hp hc hw hbw hoff
    have hpos : (0:Int) < ns := lt_of_le_of_lt (Int.natCast_nonneg S) hS
    rw [if_pos hpos, hnf] at hwinr
    simp only [Nat.zero_mul, Nat.add_zero, Nat.cast_zero] at hwinr
    have hmin : min (ns.toNat * p * c) (S * (p * c)) = S * (p * c) := by
      apply Nat.min_eq_right
      calc S * (p * c) ≤ ns.toNat * (p * c) := Nat.mul_le_mul_right _ (by omega)
        _ = ns.toNat * p * c := by ring
    rw [hmin] at hwinr
    have heq : readdzt s 0 ns = readdzt s 0 (-1) := by
      rw [hwinr, hfull]
    refine ⟨heq, ?_⟩
    rw [hcast, reshapeT_ok (p * c) S _ hk0
      (by simp only [List.length_map, List.length_range]; ring), exceptMap_ok] at hwinr
    refine ⟨_, hwinr, by simp, ?_⟩
    intro row hrow
    simp only [List.mem_map, List.mem_range] at hrow
    obtain ⟨r, _, hr⟩ := hrow
    simp [← hr]
  · intro ss ns hss
    have h := readdzt_run s info p c w off ss ns hinfo hp hc hw hbw hoff
    have hmono : S * (p * c) * w ≤ ss * c * p * w := by
      calc S * (p * c) * w ≤ ss * (p * c) * w :=
            Nat.mul_le_mul_right _ (Nat.mul_le_mul_right _ hss)
        _ = ss * c * p * w := by ring
    have havail : (s.len - (off + ss * c * p * w)) / w = 0 := by
      have h0 : s.len - (off + ss * c * p * w) = 0 := by omega
      rw [h0, Nat.zero_div]
    rw [havail] at h
    have hn : (if 0 < ns then min (ns.toNat * p * c) 0 else 0) = 0 := by
      simp [Nat.min_zero]
    rw [hn] at h
    rw [hcast, show List.map (fun i => recentre (geti info "rh_bits")
        (decodeWord (geti info "rh_bits")
          (wordAt s (off + ss * c * p * w + i * w) w))) (List.range 0) = [] from rfl,
      reshapeT_ok (p * c) 0 [] hk0 (by simp), exceptMap_ok] at h
    refine ⟨_, h, by simp, ?_⟩
    intro row hrow
    simp only [List.mem_map, List.mem_range] at hrow
    obtain ⟨r, _, hr⟩ := hrow
    simp [← hr]

/-- Witness for the amended C8: a 27-scan stream, read with
`n_scans = 100` (clamped to the full 27-column decode) and with
`start_scan = 30` (past the end: zero columns). -/
theorem C8_amended_witness :
    (readdzt smallStream 0 100 = readdzt smallStream 0 (-1) ∧
      ∃ m, readdzt smallStream 0 100 = .ok (m, smallInfo) ∧
        m.length = 2 * 1 ∧ ∀ row ∈ m, row.length = 27) ∧
    (∃ m, readdzt smallStream 30 5 = .ok (m, smallInfo) ∧
      m.length = 2 * 1 ∧ ∀ row ∈ m, row.length = 0) :=
  ⟨(C8_amended_clamp smallStream smallInfo 2 1 1 0 27 smallInfo_eq rfl rfl rfl rfl rfl
      (by norm_num [smallStream]) (by norm_num) (by norm_num)).1 100 (by norm_num),
   (C8_amended_clamp smallStream smallInfo 2 1 1 0 27 smallInfo_eq rfl rfl rfl rfl rfl
      (by norm_num [smallStream]) (by norm_num) (by norm_num)).2 30 5 (by norm_num)⟩


/-- Witness for C5: a 27-scan stream windowed with `start_scan = 1`,
`n_scans = 2`. -/
theorem C5_witness :
    ∃ mfull mwin,
      readdzt smallStream 0 (-1) = .ok (mfull, smallInfo) ∧
      readdzt smallStream 1 2 = .ok (mwin, smallInfo) ∧
      mwin.length = 2 * 1 ∧ (∀ row ∈ mwin, row.length = 2) ∧
      ∀ j < 2, colOf mwin j = colOf mfull (1 + j) :=
  C5_scan_windowing smallStream smallInfo 2 1 1 0 27 1 2 smallInfo_eq rfl rfl rfl rfl rfl
    (by norm_num [smallStream]) (by norm_num) (by norm_num) (by norm_num) (by norm_num)

/-- Witness for C2: two mappings agreeing on `rh_data` and `rh_nchan` but
differing elsewhere resolve to the same offset. -/
theorem C2_witness : headOffsetOf w2a = headOffsetOf w2b :=
  C2_offset_resolution.1 w2a w2b (by decide) (by decide)

/-- Witness for C3 at the raw values 7 (8-bit) and 40000 (16-bit). -/
theorem C3_witness :
    recentre 8 (decodeWord 8 7) = 7 - 128 ∧
    recentre 16 (decodeWord 16 40000) = 40000 - 32768 :=
  ⟨C3_sign_recentring.1 7 (by norm_num), C3_sign_recentring.2.1 40000 (by norm_num)⟩

/-- Witness for C4 with `k = 4` on a flat vector of eight samples. -/
theorem C4_witness :
    ∃ m, reshapeT ((4 : Nat) : Int) [1, 2, 3, 4, 5, 6, 7, 8] = .ok m ∧
      m.length = 4 ∧
      (∀ row ∈ m, row.length = ([1, 2, 3, 4, 5, 6, 7, 8] : List Int).length / 4) ∧
      ∀ i < ([1, 2, 3, 4, 5, 6, 7, 8] : List Int).length / 4,
        colOf m i = (([1, 2, 3, 4, 5, 6, 7, 8] : List Int).drop (i * 4)).take 4 :=
  C4_matrix_shape 4 [1, 2, 3, 4, 5, 6, 7, 8] (by norm_num) (by decide)

/-- Witness for C9 on a stream whose `rh_bits` field is 7. -/
theorem C9_witness : readdzt c9stream 0 (-1) = .error .unsupportedSampleWidth :=
  C9_unsupported_sample_width c9stream c9info 0 (-1) (by rfl)
    (by decide) (by decide) (by decide)
